import Mathlib

/-!
Verification of the file-store and AI-gateway server (`app.js`) of this
repository. The server runs from `/app` (Docker `WORKDIR /app`), so its
storage root is `/app/uploads`. We embed:

* the Node.js `path.posix` operations the handlers call (`path.basename`,
  `path.join`, which normalizes), and JavaScript `String.prototype.startsWith`;
* a filesystem state (`FileSys`) with the `fs` calls the handlers make
  (`existsSync`, `readFileSync`, `writeFileSync`, `mkdirSync`, `readdirSync`);
* each HTTP handler of `app.js` as a function from request data and
  filesystem state to a response and a new state;
* the AI gateway (`/api/gateway`) with its three provider calls, JavaScript
  property-access semantics on the upstream JSON reply (absent fields are
  `undefined`; reading a property of `undefined` throws a `TypeError`), and
  the list of outbound HTTP requests each call performs.
-/

namespace BrettApp

/-! ### Node `path.posix` model -/

/-- Splits a character list at every `'/'`, keeping empty chunks, exactly as
splitting a path string on the separator does. -/
def segsAux : List Char → List (List Char)
  | [] => [[]]
  | c :: cs =>
    if c = '/' then [] :: segsAux cs
    else
      match segsAux cs with
      | s :: rest => (c :: s) :: rest
      | [] => [[c]]

/-- Node `path.posix.basename`: the last non-empty segment of the path
(trailing separators ignored), or the empty string if there is none. -/
def basename (s : String) : String :=
  String.mk (((segsAux s.data).filter (fun l => l ≠ [])).getLastD [])

/-- True when the first character is the path separator (Node's
`path.charCodeAt(0) === CHAR_FORWARD_SLASH` test). -/
def headSlash : List Char → Bool
  | c :: _ => c = '/'
  | [] => false

/-- True when the last character is the path separator. -/
def lastSlash (l : List Char) : Bool :=
  match l.getLast? with
  | some c => c = '/'
  | none => false

/-- One step of Node's `normalizeString`: empty and `.` segments are dropped,
`..` pops the previous segment (kept literally above the root of a relative
path when `allow` is set), anything else is appended. -/
def normStep (allow : Bool) (acc : List (List Char)) (seg : List Char) : List (List Char) :=
  if seg = [] then acc
  else if seg = ['.'] then acc
  else if seg = ['.', '.'] then
    if allow then
      match acc.getLast? with
      | some ['.', '.'] => acc ++ [seg]
      | some _ => acc.dropLast
      | none => acc ++ [seg]
    else acc.dropLast
  else acc ++ [seg]

/-- Node's `normalizeString`: resolve `.` and `..` segments of a split path. -/
def normSegs (allow : Bool) (segs : List (List Char)) : List (List Char) :=
  segs.foldl (normStep allow) []

/-- Joins segments back with the separator between consecutive segments. -/
def renderSegs : List (List Char) → List Char
  | [] => []
  | [s] => s
  | s :: rest => s ++ '/' :: renderSegs rest

/-- Node `path.posix.normalize` (`isAbs` is `headSlash`, the kept trailing
separator is `lastSlash`, `..`-above-root is only allowed in relative paths). -/
def normalize (p : String) : String :=
  if p.data = [] then "." else
  match normSegs (!headSlash p.data) (segsAux p.data) with
  | [] =>
      if headSlash p.data then "/"
      else if lastSlash p.data then "./" else "."
  | segs =>
      String.mk ((if headSlash p.data then ['/'] else []) ++ renderSegs segs ++
        (if lastSlash p.data then ['/'] else []))

/-- Node `path.join` first concatenates the non-empty arguments with the
separator (`undefined` when all are empty). -/
def joinedRaw (parts : List String) : Option String :=
  parts.foldl
    (fun acc part =>
      if part = "" then acc
      else
        match acc with
        | none => some part
        | some j => some (j ++ "/" ++ part))
    none

/-- Node `path.posix.join`: concatenate the non-empty arguments and normalize;
`"."` when every argument is empty. -/
def joinList (parts : List String) : String :=
  match joinedRaw parts with
  | none => "."
  | some j => normalize j

/-- Boolean list-prefix test. -/
def isPrefixL : List Char → List Char → Bool
  | [], _ => true
  | _ :: _, [] => false
  | a :: as, b :: bs => a = b && isPrefixL as bs

/-- JavaScript `s.startsWith(pre)`. -/
def startsWithJS (s pre : String) : Bool :=
  isPrefixL pre.data s.data

/-! ### Decimal rendering of `Date.now()` values -/

/-- Decimal digit characters of a natural number, most significant first;
equal to the characters of `Nat.repr` (proved below). -/
def natDigits (n : Nat) : List Char :=
  if _h : n < 10 then [Nat.digitChar n]
  else natDigits (n / 10) ++ [Nat.digitChar (n % 10)]
decreasing_by exact Nat.div_lt_self (by omega) (by omega)

/-- Numeric value of a digit character list, inverse to `natDigits`. -/
def digitsVal (l : List Char) : Nat :=
  l.foldl (fun a c => 10 * a + (c.toNat - 48)) 0

/-! ### Filesystem state and the `fs` calls the handlers make -/

/-- Filesystem state: the existing directories and the stored files
(absolute path paired with text content). -/
structure FileSys where
  dirs : List String
  files : List (String × String)
deriving DecidableEq

/-- The empty filesystem: the server's start state before any upload/write. -/
def fs0 : FileSys := ⟨[], []⟩

/-- Model of `fs.existsSync`: the path is an existing directory or file. -/
def existsSync (fs : FileSys) (p : String) : Bool :=
  fs.dirs.contains p || fs.files.any (fun e => e.1 = p)

/-- Model of `fs.readFileSync(p, 'utf8')`: the stored content, or `none` when
the path is not a regular file (in which case the real call throws). -/
def readFileSyncQ (fs : FileSys) (p : String) : Option String :=
  fs.files.lookup p

/-- Model of `fs.writeFileSync(p, c, 'utf8')`: replace any previous file at
`p` with content `c`. -/
def writeFileSync (fs : FileSys) (p c : String) : FileSys :=
  { fs with files := fs.files.filter (fun e => e.1 ≠ p) ++ [(p, c)] }

/-- Model of `fs.mkdirSync(p, recursive)`. -/
def mkdirSync (fs : FileSys) (p : String) : FileSys :=
  { fs with dirs := p :: fs.dirs }

/-- Name of `entry` when it lies directly inside directory `dir`, i.e.
`entry = dir ++ "/" ++ name` with a nonempty, separator-free `name`. -/
def childNameL : List Char → List Char → Option (List Char)
  | [], [] => none
  | [], q :: rest =>
      if q = '/' then
        if rest = [] then none
        else if rest.contains '/' then none
        else some rest
      else none
  | _ :: _, [] => none
  | d :: ds, q :: qs => if d = q then childNameL ds qs else none

/-- Model of `fs.readdirSync(dir)`: the names of the entries directly inside
`dir`. -/
def readdirSync (fs : FileSys) (dir : String) : List String :=
  (fs.files.map Prod.fst ++ fs.dirs).filterMap
    (fun p => (childNameL dir.data p.data).map String.mk)

/-! ### The file-store HTTP handlers of `app.js` -/

/-- Response of a file-store endpoint: a success payload or an HTTP error
status with its JSON `error` message. -/
inductive FileResp where
  | uploadOk (filename : String) (path : String) (originalName : String)
  | downloadOk (path : String)
  | readOk (content : String)
  | writeOk (filename : String)
  | listOk (files : List String)
  | error (status : Nat) (message : String)
deriving DecidableEq

/-- Storage root used by every endpoint: `path.join(__dirname, 'uploads')`. -/
def uploadDirOf (dirname : String) : String :=
  joinList [dirname, "uploads"]

/-- Path a download/read/write operates on:
`path.join(__dirname, 'uploads', path.basename(filename))`. -/
def resolvedPath (dirname name : String) : String :=
  joinList [dirname, "uploads", basename name]

/-- Handler of `GET /api/download/:filename`. -/
def handleDownload (dirname : String) (fs : FileSys) (filename : String) :
    FileResp × FileSys :=
  let sanitizedFilename := basename filename
  let filePath := joinList [dirname, "uploads", sanitizedFilename]
  let uploadDir := joinList [dirname, "uploads"]
  if !(startsWithJS filePath uploadDir) then (.error 403 "Access denied", fs)
  else if existsSync fs filePath then (.downloadOk filePath, fs)
  else (.error 404 "File not found", fs)

/-- Handler of `GET /api/read/:filename`. The final branch models
`fs.readFileSync` throwing when the existing path is not a regular file;
Express turns the uncaught exception into a 500 reply. -/
def handleRead (dirname : String) (fs : FileSys) (filename : String) :
    FileResp × FileSys :=
  let sanitizedFilename := basename filename
  let filePath := joinList [dirname, "uploads", sanitizedFilename]
  let uploadDir := joinList [dirname, "uploads"]
  if !(startsWithJS filePath uploadDir) then (.error 403 "Access denied", fs)
  else if existsSync fs filePath then
    match readFileSyncQ fs filePath with
    | some content => (.readOk content, fs)
    | none => (.error 500 "EISDIR: illegal operation on a directory, read", fs)
  else (.error 404 "File not found", fs)

/-- Handler of `POST /api/write`. The request body fields are optional
(`none` models an absent JSON field); JavaScript `!filename` is also true for
the empty string, while `content === undefined` holds only for an absent
content. As in `handleRead`, a target that exists as a directory makes
`fs.writeFileSync` throw, which Express reports as a 500. -/
def handleWrite (dirname : String) (fs : FileSys)
    (filenameQ contentQ : Option String) : FileResp × FileSys :=
  match filenameQ, contentQ with
  | some filename, some content =>
    if filename = "" then (.error 400 "Filename and content required", fs)
    else
      let sanitizedFilename := basename filename
      let filePath := joinList [dirname, "uploads", sanitizedFilename]
      let uploadDir := joinList [dirname, "uploads"]
      if !(startsWithJS filePath uploadDir) then (.error 403 "Access denied", fs)
      else
        let fs1 := if existsSync fs uploadDir then fs else mkdirSync fs uploadDir
        if fs1.dirs.contains filePath then
          (.error 500 "EISDIR: illegal operation on a directory, open", fs1)
        else (.writeOk sanitizedFilename, writeFileSync fs1 filePath content)
  | _, _ => (.error 400 "Filename and content required", fs)

/-- Handler of `GET /api/files`. -/
def handleFiles (dirname : String) (fs : FileSys) : FileResp × FileSys :=
  let uploadDir := joinList [dirname, "uploads"]
  if !existsSync fs uploadDir then (.listOk [], fs)
  else (.listOk (readdirSync fs uploadDir), fs)

/-- Stored name multer's `filename` callback generates:
`Date.now() + '-' + path.basename(file.originalname)`. -/
def genUploadName (now : Nat) (originalname : String) : String :=
  Nat.repr now ++ "-" ++ basename originalname

/-- Handler of `POST /api/upload` (multer disk storage followed by the route
callback). `fileQ` is the multipart `file` part: original name and content;
`now` is the `Date.now()` value observed by the `filename` callback. -/
def handleUpload (dirname : String) (fs : FileSys) (now : Nat)
    (fileQ : Option (String × String)) : FileResp × FileSys :=
  match fileQ with
  | none => (.error 400 "No file uploaded", fs)
  | some (originalname, content) =>
    let uploadDir := joinList [dirname, "uploads"]
    let fs1 := if existsSync fs uploadDir then fs else mkdirSync fs uploadDir
    let storedName := genUploadName now originalname
    let filePath := joinList [uploadDir, storedName]
    (.uploadOk storedName filePath originalname, writeFileSync fs1 filePath content)

/-! ### The AI gateway (`POST /api/gateway`) -/

/-- JSON value, as obtained from `response.json()` or sent as a request body. -/
inductive JsVal where
  | null
  | bool (b : Bool)
  | num (n : Int)
  | str (s : String)
  | arr (elems : List JsVal)
  | obj (fields : List (String × JsVal))

/-- Single-quote character, for building V8 error messages. -/
def squote : String := String.mk [Char.ofNat 39]

/-- V8 message for reading property `k` of `undefined`. -/
def undefinedReadMsg (k : String) : String :=
  "Cannot read properties of undefined (reading " ++ squote ++ k ++ squote ++ ")"

/-- V8 message for reading property `k` of `null`. -/
def nullReadMsg (k : String) : String :=
  "Cannot read properties of null (reading " ++ squote ++ k ++ squote ++ ")"

/-- JavaScript property read `v.k` where `v` may be `undefined` (`none`):
reading a property of `undefined` or `null` throws a `TypeError`; a missing
field of an object, or a named property of any other value, is `undefined`. -/
def getProp (v : Option JsVal) (k : String) : Except String (Option JsVal) :=
  match v with
  | none => .error (undefinedReadMsg k)
  | some .null => .error (nullReadMsg k)
  | some (.obj fields) => .ok (fields.lookup k)
  | some _ => .ok none

/-- JavaScript element read `v[i]` with the same `TypeError` behaviour. -/
def getIdx (v : Option JsVal) (i : Nat) : Except String (Option JsVal) :=
  match v with
  | none => .error (undefinedReadMsg (Nat.repr i))
  | some .null => .error (nullReadMsg (Nat.repr i))
  | some (.arr elems) => .ok (elems.get? i)
  | some (.obj fields) => .ok (fields.lookup (Nat.repr i))
  | some _ => .ok none

/-- Evaluation of `data.choices[0].message.content` (DeepSeek and OpenAI
replies share this shape). -/
def extractChat (data : JsVal) : Except String (Option JsVal) :=
  match getProp (some data) "choices" with
  | .error e => .error e
  | .ok v1 =>
    match getIdx v1 0 with
    | .error e => .error e
    | .ok v2 =>
      match getProp v2 "message" with
      | .error e => .error e
      | .ok v3 => getProp v3 "content"

/-- Evaluation of `data.candidates[0].content.parts[0].text` (Gemini reply). -/
def extractGemini (data : JsVal) : Except String (Option JsVal) :=
  match getProp (some data) "candidates" with
  | .error e => .error e
  | .ok v1 =>
    match getIdx v1 0 with
    | .error e => .error e
    | .ok v2 =>
      match getProp v2 "content" with
      | .error e => .error e
      | .ok v3 =>
        match getProp v3 "parts" with
        | .error e => .error e
        | .ok v4 =>
          match getIdx v4 0 with
          | .error e => .error e
          | .ok v5 => getProp v5 "text"

/-- Reply of the (possibly mocked) upstream provider: `response.ok`,
`response.statusText`, and the JSON body `response.json()` yields. -/
structure Upstream where
  ok : Bool
  statusText : String
  body : JsVal

/-- Outbound HTTP POST a provider call issues: URL, optional `Authorization`
header, JSON body. -/
structure OutboundReq where
  url : String
  authHeader : Option String
  body : JsVal

/-- Request `callDeepSeek` sends: bearer auth, default model
`deepseek-chat`, the prompt as the sole user message. -/
def deepseekReq (apiKey prompt : String) (modelQ : Option String) : OutboundReq where
  url := "https://api.deepseek.com/v1/chat/completions"
  authHeader := some ("Bearer " ++ apiKey)
  body := .obj [("model", .str (modelQ.getD "deepseek-chat")),
    ("messages", .arr [.obj [("role", .str "user"), ("content", .str prompt)]])]

/-- Request `callGemini` sends: the API key as a URL query parameter, default
model `gemini-pro`. -/
def geminiReq (apiKey prompt : String) (modelQ : Option String) : OutboundReq where
  url := "https://generativelanguage.googleapis.com/v1/models/" ++
    modelQ.getD "gemini-pro" ++ ":generateContent?key=" ++ apiKey
  authHeader := none
  body := .obj [("contents", .arr [.obj [("parts", .arr [.obj [("text", .str prompt)]])]])]

/-- Request `callCopilot` sends: OpenAI chat endpoint, bearer auth, default
model `gpt-4`. -/
def copilotReq (apiKey prompt : String) (modelQ : Option String) : OutboundReq where
  url := "https://api.openai.com/v1/chat/completions"
  authHeader := some ("Bearer " ++ apiKey)
  body := .obj [("model", .str (modelQ.getD "gpt-4")),
    ("messages", .arr [.obj [("role", .str "user"), ("content", .str prompt)]])]

/-- Body of `callDeepSeek`: one fetch, throw on a non-ok status, otherwise
extract the reply text. -/
def callDeepSeek (apiKey prompt : String) (modelQ : Option String)
    (up : Upstream) : OutboundReq × Except String (Option JsVal) :=
  (deepseekReq apiKey prompt modelQ,
    if !up.ok then .error ("DeepSeek API error: " ++ up.statusText)
    else extractChat up.body)

/-- Body of `callGemini`. -/
def callGemini (apiKey prompt : String) (modelQ : Option String)
    (up : Upstream) : OutboundReq × Except String (Option JsVal) :=
  (geminiReq apiKey prompt modelQ,
    if !up.ok then .error ("Gemini API error: " ++ up.statusText)
    else extractGemini up.body)

/-- Body of `callCopilot`. -/
def callCopilot (apiKey prompt : String) (modelQ : Option String)
    (up : Upstream) : OutboundReq × Except String (Option JsVal) :=
  (copilotReq apiKey prompt modelQ,
    if !up.ok then .error ("OpenAI API error: " ++ up.statusText)
    else extractChat up.body)

/-- Gateway response: 200 with success true and the extracted response value
(`none` when it is `undefined`), or an HTTP error status with its `error`
message. -/
inductive GatewayResp where
  | success (response : Option JsVal)
  | error (status : Nat) (message : String)

/-- Wraps a provider call's outcome the way the route does: the `try` block
answers 200 with the response value, the `catch` block answers 500 with the
caught error's message; either way the one fetch the call performed is
recorded. -/
def finishCall (r : OutboundReq × Except String (Option JsVal)) :
    GatewayResp × List OutboundReq :=
  match r.2 with
  | .ok v => (.success v, [r.1])
  | .error msg => (.error 500 msg, [r.1])

/-- Handler of `POST /api/gateway`: dispatch on `service` (an absent field,
like any value outside the three cases, hits the `default` branch), returning
the response and the list of outbound upstream requests performed. -/
def handleGateway (serviceQ : Option String) (apiKey prompt : String)
    (modelQ : Option String) (up : Upstream) : GatewayResp × List OutboundReq :=
  match serviceQ with
  | none => (.error 400 "Invalid service", [])
  | some s =>
    if s = "deepseek" then finishCall (callDeepSeek apiKey prompt modelQ up)
    else if s = "gemini" then finishCall (callGemini apiKey prompt modelQ up)
    else if s = "copilot" then finishCall (callCopilot apiKey prompt modelQ up)
    else (.error 400 "Invalid service", [])

/-! ### Lemmas about path splitting and joining -/

theorem segsAux_ne_nil (cs : List Char) : segsAux cs ≠ [] := by
  induction cs with
  | nil => simp [segsAux]
  | cons c cs ih =>
    simp only [segsAux]
    split
    · simp
    · cases h : segsAux cs with
      | nil => exact absurd h ih
      | cons s rest => simp

theorem no_slash_of_mem_segsAux (cs : List Char) :
    ∀ l ∈ segsAux cs, '/' ∉ l := by
  induction cs with
  | nil => intro l hl; simp [segsAux] at hl; simp [hl]
  | cons c cs ih =>
    intro l hl
    simp only [segsAux] at hl
    by_cases hc : c = '/'
    · rw [if_pos hc] at hl
      rcases List.mem_cons.mp hl with h | h
      · simp [h]
      · exact ih l h
    · rw [if_neg hc] at hl
      cases h : segsAux cs with
      | nil => exact absurd h (segsAux_ne_nil cs)
      | cons s rest =>
        have hs : s ∈ segsAux cs := by rw [h]; exact List.mem_cons_self s rest
        rw [h] at hl
        rcases List.mem_cons.mp hl with h1 | h1
        · subst h1
          intro hmem
          rcases List.mem_cons.mp hmem with h2 | h2
          · exact hc h2.symm
          · exact ih s hs h2
        · have : l ∈ segsAux cs := by rw [h]; exact List.mem_cons.mpr (Or.inr h1)
          exact ih l this

theorem segsAux_append (a b : List Char) :
    segsAux (a ++ '/' :: b) = segsAux a ++ segsAux b := by
  induction a with
  | nil => simp [segsAux]
  | cons c cs ih =>
    show segsAux (c :: (cs ++ '/' :: b)) = _
    simp only [segsAux]
    by_cases hc : c = '/'
    · rw [if_pos hc, if_pos hc, ih]
      simp
    · rw [if_neg hc, if_neg hc, ih]
      cases h : segsAux cs with
      | nil => exact absurd h (segsAux_ne_nil cs)
      | cons s rest => simp

theorem segsAux_no_slash (cs : List Char) (h : '/' ∉ cs) : segsAux cs = [cs] := by
  induction cs with
  | nil => simp [segsAux]
  | cons c cs ih =>
    simp only [segsAux]
    rw [if_neg (fun hc => h (by rw [hc]; exact List.mem_cons_self '/' cs)),
      ih (fun hm => h (List.mem_cons.mpr (Or.inr hm)))]

theorem getLastD_nil_or_mem (l : List (List Char)) :
    ∀ d : List Char, l.getLastD d = d ∨ l.getLastD d ∈ l := by
  induction l with
  | nil => intro d; left; rfl
  | cons a t ih =>
    intro d
    rcases ih a with h | h
    · right; rw [List.getLastD_cons, h]; exact List.mem_cons_self a t
    · right; rw [List.getLastD_cons]; exact List.mem_cons.mpr (Or.inr h)

theorem basename_no_slash (s : String) : '/' ∉ (basename s).data := by
  unfold basename
  rcases getLastD_nil_or_mem ((segsAux s.data).filter (fun l => l ≠ [])) [] with h | h
  · rw [h]; simp
  · exact no_slash_of_mem_segsAux s.data _ (List.mem_filter.mp h).1

theorem isPrefixL_self_append (p s : List Char) : isPrefixL p (p ++ s) = true := by
  induction p with
  | nil => simp [isPrefixL]
  | cons c cs ih => simp [isPrefixL, ih]

/-! ### Lemmas about decimal rendering -/

theorem digitChar_toNat : ∀ d : Nat, d < 10 → (Nat.digitChar d).toNat = 48 + d := by
  decide

theorem natDigits_eq_def (n : Nat) :
    natDigits n =
      if n < 10 then [Nat.digitChar n]
      else natDigits (n / 10) ++ [Nat.digitChar (n % 10)] := by
  rw [natDigits]
  split <;> rfl

theorem toDigitsCore_eq_natDigits (f : Nat) :
    ∀ n acc, n < f → Nat.toDigitsCore 10 f n acc = natDigits n ++ acc := by
  induction f with
  | zero => intro n acc h; omega
  | succ f ih =>
    intro n acc h
    simp only [Nat.toDigitsCore]
    by_cases h0 : n / 10 = 0
    · rw [if_pos h0, natDigits_eq_def, if_pos (by omega : n < 10),
        Nat.mod_eq_of_lt (by omega : n < 10)]
      rfl
    · have hn10 : ¬n < 10 := fun hlt => h0 (Nat.div_eq_of_lt hlt)
      rw [if_neg h0, ih (n / 10) _ (by omega),
        natDigits_eq_def n, if_neg hn10, List.append_assoc]
      rfl

theorem repr_data (n : Nat) : (Nat.repr n).data = natDigits n := by
  show (Nat.toDigits 10 n).asString.data = natDigits n
  rw [Nat.toDigits, toDigitsCore_eq_natDigits (n + 1) n [] (by omega)]
  simp [List.asString]

theorem mem_natDigits_bounds (n : Nat) :
    ∀ c ∈ natDigits n, 48 ≤ c.toNat ∧ c.toNat ≤ 57 := by
  induction n using Nat.strong_induction_on with
  | _ n ih =>
    intro c hc
    rw [natDigits_eq_def] at hc
    by_cases h : n < 10
    · rw [if_pos h] at hc
      rcases List.mem_cons.mp hc with h1 | h1
      · rw [h1, digitChar_toNat n h]; omega
      · simp at h1
    · rw [if_neg h] at hc
      rcases List.mem_append.mp hc with h1 | h1
      · exact ih (n / 10) (Nat.div_lt_self (by omega) (by omega)) c h1
      · have : c = Nat.digitChar (n % 10) := by simpa using h1
        rw [this, digitChar_toNat (n % 10) (Nat.mod_lt n (by omega))]
        omega

theorem natDigits_no_slash (n : Nat) : '/' ∉ natDigits n := by
  intro h
  have := mem_natDigits_bounds n '/' h
  rw [show Char.toNat '/' = 47 from rfl] at this
  omega

theorem natDigits_no_dash (n : Nat) : '-' ∉ natDigits n := by
  intro h
  have := mem_natDigits_bounds n '-' h
  rw [show Char.toNat '-' = 45 from rfl] at this
  omega

theorem digitsVal_natDigits (n : Nat) : digitsVal (natDigits n) = n := by
  induction n using Nat.strong_induction_on with
  | _ n ih =>
    rw [natDigits_eq_def]
    by_cases h : n < 10
    · rw [if_pos h]
      simp [digitsVal, digitChar_toNat n h]
    · rw [if_neg h]
      have hdiv := ih (n / 10) (Nat.div_lt_self (by omega) (by omega))
      simp only [digitsVal, List.foldl_append, List.foldl_cons, List.foldl_nil]
      rw [show (List.foldl (fun a c => 10 * a + (c.toNat - 48)) 0 (natDigits (n / 10))) =
        digitsVal (natDigits (n / 10)) from rfl, hdiv,
        digitChar_toNat (n % 10) (Nat.mod_lt n (by omega))]
      omega

theorem repr_inj {m n : Nat} (h : Nat.repr m = Nat.repr n) : m = n := by
  have : natDigits m = natDigits n := by
    rw [← repr_data, ← repr_data, h]
  calc m = digitsVal (natDigits m) := (digitsVal_natDigits m).symm
    _ = digitsVal (natDigits n) := by rw [this]
    _ = n := digitsVal_natDigits n

theorem append_sep_cancel (x : Char) :
    ∀ (a b c d : List Char), x ∉ a → x ∉ b → a ++ x :: c = b ++ x :: d →
      a = b ∧ c = d := by
  intro a
  induction a with
  | nil =>
    intro b c d _ hb h
    cases b with
    | nil => simpa using h
    | cons y bs =>
      simp only [List.nil_append, List.cons_append, List.cons.injEq] at h
      exact absurd (h.1 ▸ List.mem_cons_self y bs) hb
  | cons z as ih =>
    intro b c d ha hb h
    cases b with
    | nil =>
      simp only [List.cons_append, List.nil_append, List.cons.injEq] at h
      exact absurd (h.1 ▸ List.mem_cons_self z as) ha
    | cons y bs =>
      simp only [List.cons_append, List.cons.injEq] at h
      have := ih bs c d (fun hm => ha (List.mem_cons.mpr (Or.inr hm)))
        (fun hm => hb (List.mem_cons.mpr (Or.inr hm))) h.2
      exact ⟨by rw [h.1, this.1], this.2⟩

/-! ### Resolving a separator-free name under the storage root -/

theorem lastSlash_append (l1 l2 : List Char) (h : l2 ≠ []) :
    lastSlash (l1 ++ l2) = lastSlash l2 := by
  unfold lastSlash
  rw [List.getLast?_append]
  cases h2 : l2.getLast? with
  | none => exact absurd (List.getLast?_eq_none_iff.mp h2) h
  | some c => rfl

theorem lastSlash_no_slash (l : List Char) (h : '/' ∉ l) : lastSlash l = false := by
  unfold lastSlash
  cases h2 : l.getLast? with
  | none => rfl
  | some c =>
    have : c ∈ l := List.mem_of_getLast?_eq_some h2
    simp only [decide_eq_false_iff_not]
    intro hc
    exact h (hc ▸ this)

theorem headSlash_append (l1 l2 : List Char) (h : l1 ≠ []) :
    headSlash (l1 ++ l2) = headSlash l1 := by
  cases l1 with
  | nil => exact absurd rfl h
  | cons c cs => rfl

/-- Normalizing `/app/uploads/<seg>` for a nonempty, separator-free segment
other than `.` and `..` keeps the path unchanged. -/
theorem normalize_root_seg (b : List Char)
    (hb : '/' ∉ b) (hne : b ≠ []) (hd : b ≠ ['.']) (hdd : b ≠ ['.', '.'])
    (p : String) (hp : p.data = "/app/uploads".data ++ '/' :: b) :
    (normalize p).data = "/app/uploads".data ++ '/' :: b := by
  have hnil : p.data ≠ [] := by
    rw [hp]; simp
  have hhead : headSlash p.data = true := by
    rw [hp, headSlash_append _ _ (by decide)]
    decide
  have htrail : lastSlash p.data = false := by
    rw [hp, show "/app/uploads".data ++ '/' :: b = ("/app/uploads".data ++ ['/']) ++ b by
      simp, lastSlash_append _ _ hne]
    exact lastSlash_no_slash b hb
  have hsegs : segsAux p.data = [[], "app".data, "uploads".data] ++ [b] := by
    rw [hp, segsAux_append, segsAux_no_slash b hb]
    rfl
  have hnorm : normSegs (!headSlash p.data) (segsAux p.data) =
      ["app".data, "uploads".data, b] := by
    rw [hhead, hsegs]
    show normSegs false ([[], "app".data, "uploads".data] ++ [b]) = _
    unfold normSegs
    rw [List.foldl_append]
    show normStep false (normSegs false [[], "app".data, "uploads".data]) b = _
    rw [show normSegs false [[], "app".data, "uploads".data] =
      ["app".data, "uploads".data] from by decide]
    unfold normStep
    rw [if_neg hne, if_neg hd, if_neg hdd]
    rfl
  unfold normalize
  rw [if_neg hnil, hnorm, hhead, htrail]
  show ('/' :: renderSegs ["app".data, "uploads".data, b]) ++ [] = _
  rw [List.append_nil]
  show '/' :: ("app".data ++ '/' :: ("uploads".data ++ '/' :: b)) = _
  rw [show "/app/uploads".data = ('/' :: "app".data) ++ ('/' :: "uploads".data) from by decide]
  simp

/-- The raw join of `path.join(__dirname, 'uploads', nm)` at `/app` for a
nonempty `nm`. -/
theorem joinedRaw_app3 (nm : String) (h : nm ≠ "") :
    joinedRaw ["/app", "uploads", nm] = some ("/app/uploads/" ++ nm) := by
  unfold joinedRaw
  simp only [List.foldl]
  rw [if_neg (by decide : ¬("/app" : String) = ""),
    if_neg (by decide : ¬("uploads" : String) = ""), if_neg h]
  show some ("/app" ++ "/" ++ "uploads" ++ "/" ++ nm) = _
  rw [show ("/app" ++ "/" ++ "uploads" ++ "/" : String) = "/app/uploads/" from by decide]

/-- The raw join of `path.join(uploadDir, name)` for a nonempty `nm`. -/
theorem joinedRaw_root2 (nm : String) (h : nm ≠ "") :
    joinedRaw ["/app/uploads", nm] = some ("/app/uploads/" ++ nm) := by
  unfold joinedRaw
  simp only [List.foldl]
  rw [if_neg (by decide : ¬("/app/uploads" : String) = ""), if_neg h]
  show some ("/app/uploads" ++ "/" ++ nm) = _
  rw [show ("/app/uploads" ++ "/" : String) = "/app/uploads/" from by decide]

theorem data_root_slash (nm : String) :
    ("/app/uploads/" ++ nm).data = "/app/uploads".data ++ '/' :: nm.data := by
  rw [String.data_append,
    show "/app/uploads/".data = "/app/uploads".data ++ ['/'] from by decide]
  simp

/-- Join of the storage root and a separator-free plain segment, three-part
form used by download/read/write. -/
theorem joinList_app3 (nm : String) (hb : '/' ∉ nm.data) (hne : nm.data ≠ [])
    (hd : nm.data ≠ ['.']) (hdd : nm.data ≠ ['.', '.']) :
    (joinList ["/app", "uploads", nm]).data = "/app/uploads".data ++ '/' :: nm.data := by
  have h : nm ≠ "" := fun he => hne (by rw [he])
  unfold joinList
  rw [joinedRaw_app3 nm h]
  exact normalize_root_seg nm.data hb hne hd hdd _ (data_root_slash nm)

/-- Join of the storage root and a separator-free plain segment, two-part
form used by the upload storage engine. -/
theorem joinList_root2 (nm : String) (hb : '/' ∉ nm.data) (hne : nm.data ≠ [])
    (hd : nm.data ≠ ['.']) (hdd : nm.data ≠ ['.', '.']) :
    (joinList ["/app/uploads", nm]).data = "/app/uploads".data ++ '/' :: nm.data := by
  have h : nm ≠ "" := fun he => hne (by rw [he])
  unfold joinList
  rw [joinedRaw_root2 nm h]
  exact normalize_root_seg nm.data hb hne hd hdd _ (data_root_slash nm)

/-! ### The generated upload name -/

theorem genUploadName_data (now : Nat) (orig : String) :
    (genUploadName now orig).data = natDigits now ++ '-' :: (basename orig).data := by
  unfold genUploadName
  rw [String.data_append, String.data_append, repr_data]
  show _ ++ ("-").data ++ _ = _
  rw [show ("-").data = ['-'] from rfl]
  simp

theorem dash_mem_genUploadName (now : Nat) (orig : String) :
    '-' ∈ (genUploadName now orig).data := by
  rw [genUploadName_data]
  exact List.mem_append.mpr (Or.inr (List.mem_cons_self _ _))

theorem genUploadName_no_slash (now : Nat) (orig : String) :
    '/' ∉ (genUploadName now orig).data := by
  rw [genUploadName_data]
  intro h
  rcases List.mem_append.mp h with h1 | h1
  · exact natDigits_no_slash now h1
  · rcases List.mem_cons.mp h1 with h2 | h2
    · exact absurd h2 (by decide)
    · exact basename_no_slash orig h2

theorem genUploadName_ne_nil (now : Nat) (orig : String) :
    (genUploadName now orig).data ≠ [] :=
  List.ne_nil_of_mem (dash_mem_genUploadName now orig)

theorem genUploadName_ne_dot (now : Nat) (orig : String) :
    (genUploadName now orig).data ≠ ['.'] := by
  intro h
  have := dash_mem_genUploadName now orig
  rw [h] at this
  exact absurd this (by decide)

theorem genUploadName_ne_dotdot (now : Nat) (orig : String) :
    (genUploadName now orig).data ≠ ['.', '.'] := by
  intro h
  have := dash_mem_genUploadName now orig
  rw [h] at this
  exact absurd this (by decide)

/-! ### The resolved path stays under the storage root -/

theorem startsWith_resolved_true (nm : String) (h : '/' ∉ nm.data)
    (hdd : nm.data ≠ ['.', '.']) :
    startsWithJS (joinList ["/app", "uploads", nm]) "/app/uploads" = true := by
  by_cases hne : nm.data = []
  · rw [String.ext (hne : nm.data = ("" : String).data)]
    decide
  · by_cases hd : nm.data = ['.']
    · rw [String.ext (hd : nm.data = ("." : String).data)]
      decide
    · unfold startsWithJS
      rw [joinList_app3 nm h hne hd hdd]
      exact isPrefixL_self_append _ _

theorem startsWith_upload_true (now : Nat) (orig : String) :
    startsWithJS (joinList ["/app/uploads", genUploadName now orig]) "/app/uploads" = true := by
  unfold startsWithJS
  rw [joinList_root2 (genUploadName now orig) (genUploadName_no_slash now orig)
    (genUploadName_ne_nil now orig) (genUploadName_ne_dot now orig)
    (genUploadName_ne_dotdot now orig)]
  exact isPrefixL_self_append _ _

theorem uploadDir_app : uploadDirOf "/app" = "/app/uploads" := by decide

theorem startsWith_resolved_or (name : String) :
    startsWithJS (resolvedPath "/app" name) (uploadDirOf "/app") = true ∨
      basename name = ".." := by
  by_cases hdd : (basename name).data = ['.', '.']
  · exact Or.inr (String.ext hdd)
  · refine Or.inl ?_
    rw [uploadDir_app]
    unfold resolvedPath
    exact startsWith_resolved_true (basename name) (basename_no_slash name) hdd

theorem handleRead_dotdot (fs : FileSys) (name : String) (hb : basename name = "..") :
    (handleRead "/app" fs name).1 = .error 403 "Access denied" := by
  simp only [handleRead, hb]
  rw [show startsWithJS (joinList ["/app", "uploads", ".."]) (joinList ["/app", "uploads"]) =
    false from by decide]
  rfl

theorem handleDownload_dotdot (fs : FileSys) (name : String) (hb : basename name = "..") :
    (handleDownload "/app" fs name).1 = .error 403 "Access denied" := by
  simp only [handleDownload, hb]
  rw [show startsWithJS (joinList ["/app", "uploads", ".."]) (joinList ["/app", "uploads"]) =
    false from by decide]
  rfl

theorem handleWrite_dotdot (fs : FileSys) (name content : String)
    (hb : basename name = "..") :
    (handleWrite "/app" fs (some name) (some content)).1 = .error 403 "Access denied" := by
  have hne : ¬name = "" := by
    intro h
    rw [h] at hb
    exact absurd hb (by decide)
  simp only [handleWrite, if_neg hne, hb]
  rw [show startsWithJS (joinList ["/app", "uploads", ".."]) (joinList ["/app", "uploads"]) =
    false from by decide]
  rfl

/-! ### The claims -/

/-- C1: every accepted Download, Read and Write operation works on the path
`path.join('/app', 'uploads', path.basename(filename))`, whose sanitized name
contains no separator and which satisfies `startsWith('/app/uploads')`; the
name an Upload stores likewise contains no separator and its resolved path
satisfies the same prefix property unconditionally. -/
theorem claim1_containment (fs : FileSys) (name content orig : String) (now : Nat) :
    '/' ∉ (basename name).data ∧
    ((handleRead "/app" fs name).1 ≠ .error 403 "Access denied" →
      startsWithJS (resolvedPath "/app" name) (uploadDirOf "/app") = true) ∧
    ((handleDownload "/app" fs name).1 ≠ .error 403 "Access denied" →
      startsWithJS (resolvedPath "/app" name) (uploadDirOf "/app") = true) ∧
    ((handleWrite "/app" fs (some name) (some content)).1 ≠ .error 403 "Access denied" →
      startsWithJS (resolvedPath "/app" name) (uploadDirOf "/app") = true) ∧
    '/' ∉ (genUploadName now orig).data ∧
    startsWithJS (joinList [uploadDirOf "/app", genUploadName now orig])
      (uploadDirOf "/app") = true := by
  refine ⟨basename_no_slash name, ?_, ?_, ?_, genUploadName_no_slash now orig, ?_⟩
  · intro hacc
    rcases startsWith_resolved_or name with h | h
    · exact h
    · exact absurd (handleRead_dotdot fs name h) hacc
  · intro hacc
    rcases startsWith_resolved_or name with h | h
    · exact h
    · exact absurd (handleDownload_dotdot fs name h) hacc
  · intro hacc
    rcases startsWith_resolved_or name with h | h
    · exact h
    · exact absurd (handleWrite_dotdot fs name content h) hacc
  · rw [uploadDir_app]
    exact startsWith_upload_true now orig

/-- Witness for C1 at the concrete filename "a.txt" on the empty filesystem:
the accepted read's hypothesis holds there and the resolved path starts with
the storage root. -/
theorem claim1_containment_witness :
    startsWithJS (resolvedPath "/app" "a.txt") (uploadDirOf "/app") = true :=
  (claim1_containment fs0 "a.txt" "x" "y" 0).2.1 (by decide)

/-- C2: the `startsWith` bound check is reachable as a rejection: on the
input filename `..`, `path.basename` leaves `..` unchanged, the join resolves
to `/app` which does not start with `/app/uploads`, and Download, Read and
Write all answer 403 Access denied without touching the state. -/
theorem claim2_second_gate :
    basename ".." = ".." ∧
    resolvedPath "/app" ".." = "/app" ∧
    startsWithJS (resolvedPath "/app" "..") (uploadDirOf "/app") = false ∧
    handleDownload "/app" fs0 ".." = (.error 403 "Access denied", fs0) ∧
    handleRead "/app" fs0 ".." = (.error 403 "Access denied", fs0) ∧
    handleWrite "/app" fs0 (some "..") (some "x") = (.error 403 "Access denied", fs0) := by
  decide

/-- C10: Read, Download and List never change the filesystem state: whatever
the input, they return the state they were given (in particular they never
create the storage root). -/
theorem claim10_readonly_frame (dirname : String) (fs : FileSys) (name : String) :
    (handleRead dirname fs name).2 = fs ∧
    (handleDownload dirname fs name).2 = fs ∧
    (handleFiles dirname fs).2 = fs := by
  refine ⟨?_, ?_, ?_⟩ <;> simp only [handleRead, handleDownload, handleFiles] <;>
    (repeat' split) <;> rfl

theorem lookup_filter_append (l : List (String × String)) (p c : String) :
    ((l.filter (fun e => e.1 ≠ p)) ++ [(p, c)]).lookup p = some c := by
  induction l with
  | nil => simp [List.lookup]
  | cons e t ih =>
    rw [List.filter_cons]
    by_cases h : e.1 = p
    · rw [if_neg (by simp [h])]
      exact ih
    · rw [if_pos (by simp [h]), List.cons_append]
      rcases e with ⟨k, v⟩
      have hk : (p == k) = false := by
        simp only [beq_eq_false_iff_ne]
        exact fun hp => h hp.symm
      simp only [List.lookup, hk]
      exact ih

theorem readFileSync_writeFileSync (fs : FileSys) (p c : String) :
    readFileSyncQ (writeFileSync fs p c) p = some c := by
  unfold readFileSyncQ writeFileSync
  exact lookup_filter_append fs.files p c

theorem existsSync_writeFileSync (fs : FileSys) (p c : String) :
    existsSync (writeFileSync fs p c) p = true := by
  simp [existsSync, writeFileSync]

/-- C4: when a Write succeeds, a Read of the same name answers exactly the
written content, for every filename and every content string (the model's
strings cover the empty string and arbitrary Unicode text). -/
theorem claim4_write_read_roundtrip (fs fsW : FileSys) (name content stored : String)
    (h : handleWrite "/app" fs (some name) (some content) = (.writeOk stored, fsW)) :
    (handleRead "/app" fsW name).1 = .readOk content := by
  simp only [handleWrite] at h
  split at h
  · exact absurd h (by simp)
  · split at h
    · exact absurd h (by simp)
    · rename_i hg
      have hsw : startsWithJS (joinList ["/app", "uploads", basename name])
          (joinList ["/app", "uploads"]) = true := by
        revert hg
        cases startsWithJS (joinList ["/app", "uploads", basename name])
          (joinList ["/app", "uploads"]) <;> simp
      split at h <;> split at h
      · exact absurd h (by simp)
      · injection h with h1 h2
        rw [← h2]
        simp only [handleRead, hsw, Bool.not_true, Bool.false_eq_true, if_false,
          existsSync_writeFileSync, readFileSync_writeFileSync, if_true]
      · exact absurd h (by simp)
      · injection h with h1 h2
        rw [← h2]
        simp only [handleRead, hsw, Bool.not_true, Bool.false_eq_true, if_false,
          existsSync_writeFileSync, readFileSync_writeFileSync, if_true]

/-- Witness for C4: writing `hello` to `a.txt` on the empty filesystem
succeeds, and reading `a.txt` afterwards returns `hello`. -/
theorem claim4_write_read_roundtrip_witness :
    (handleRead "/app"
      (handleWrite "/app" fs0 (some "a.txt") (some "hello")).2 "a.txt").1 =
      .readOk "hello" :=
  claim4_write_read_roundtrip fs0 _ "a.txt" "hello" "a.txt" (by decide)

/-- C6 counterexample: a request whose filename is present but equal to the
empty string (with content present) is rejected with the missing-parameters
400, although nothing is absent from the request: JavaScript `!filename` is
true for the empty string. This refutes the claimed "if and only if the
filename or the content is absent". -/
theorem claim6_counterexample :
    handleWrite "/app" fs0 (some "") (some "x") =
      (.error 400 "Filename and content required", fs0) := by
  decide

/-- C6 (amended): Write fails with 400 "Filename and content required" iff
the filename is absent or the empty string, or the content is absent; that
failure leaves the filesystem untouched (no file written, storage root not
created); and an empty content with a nonempty filename passes the parameter
check (it is never rejected with this 400). -/
theorem claim6_missing_params (fs : FileSys) (fQ cQ : Option String) :
    ((handleWrite "/app" fs fQ cQ).1 = .error 400 "Filename and content required" ↔
      (fQ = none ∨ fQ = some "" ∨ cQ = none)) ∧
    ((fQ = none ∨ fQ = some "" ∨ cQ = none) →
      handleWrite "/app" fs fQ cQ = (.error 400 "Filename and content required", fs)) ∧
    (∀ n : String, n ≠ "" →
      (handleWrite "/app" fs (some n) (some "")).1 ≠
        .error 400 "Filename and content required") := by
  have key : ∀ (fQ cQ : Option String), (fQ = none ∨ fQ = some "" ∨ cQ = none) →
      handleWrite "/app" fs fQ cQ = (.error 400 "Filename and content required", fs) := by
    intro fQ cQ h
    rcases h with h | h | h
    · subst h; cases cQ <;> rfl
    · subst h
      cases cQ with
      | none => rfl
      | some c => simp [handleWrite]
    · subst h
      cases fQ with
      | none => rfl
      | some f => rfl
  have fwd : ∀ (n c : String), n ≠ "" →
      (handleWrite "/app" fs (some n) (some c)).1 ≠
        .error 400 "Filename and content required" := by
    intro n c hn heq
    simp only [handleWrite, if_neg hn] at heq
    split at heq
    · simp at heq
    · split at heq <;> split at heq <;> simp at heq
  refine ⟨⟨?_, fun h => by rw [key fQ cQ h]⟩, key fQ cQ, fun n hn => fwd n "" hn⟩
  intro h
  cases fQ with
  | none => exact Or.inl rfl
  | some n =>
    cases cQ with
    | none => exact Or.inr (Or.inr rfl)
    | some c =>
      by_cases hn : n = ""
      · exact Or.inr (Or.inl (by rw [hn]))
      · exact absurd h (fwd n c hn)

/-- Witness for C6 (amended) at a concrete absent filename. -/
theorem claim6_missing_params_witness :
    handleWrite "/app" fs0 none (some "x") =
      (.error 400 "Filename and content required", fs0) :=
  (claim6_missing_params fs0 none (some "x")).2.1 (Or.inl rfl)

/-! ### Listing the storage root -/

theorem childNameL_eq_some (d : List Char) :
    ∀ (p n : List Char), childNameL d p = some n ↔
      (p = d ++ '/' :: n ∧ n ≠ [] ∧ '/' ∉ n) := by
  induction d with
  | nil =>
    intro p n
    cases p with
    | nil => simp [childNameL]
    | cons q qs =>
      show (if q = '/' then
        (if qs = [] then none
          else if qs.contains '/' then none else some qs) else none) = some n ↔ _
      by_cases hq : q = '/'
      · subst hq
        rw [if_pos rfl]
        by_cases h0 : qs = []
        · rw [if_pos h0, h0]
          simp
          intro h1 h2
          exact absurd h1 h2
        · rw [if_neg h0]
          by_cases hc : qs.contains '/'
          · rw [if_pos hc]
            have : '/' ∈ qs := by
              have := hc
              unfold List.contains at this
              exact List.elem_iff.mp this
            simp only [List.nil_append, List.cons.injEq, true_and]
            constructor
            · intro he; exact absurd he (by simp)
            · rintro ⟨he, -, hns⟩
              exact absurd (he ▸ this) hns
          · rw [if_neg hc]
            have hns : '/' ∉ qs := by
              intro hm
              exact hc (by unfold List.contains; exact List.elem_iff.mpr hm)
            simp only [Option.some.injEq, List.nil_append, List.cons.injEq, true_and]
            constructor
            · intro he; subst he; exact ⟨rfl, h0, hns⟩
            · rintro ⟨he, -, -⟩; exact he
      · rw [if_neg hq]
        simp only [List.nil_append, List.cons.injEq]
        constructor
        · intro he; exact absurd he (by simp)
        · rintro ⟨⟨he, -⟩, -, -⟩
          exact absurd he hq
  | cons dc ds ih =>
    intro p n
    cases p with
    | nil =>
      simp [childNameL]
    | cons q qs =>
      show (if dc = q then childNameL ds qs else none) = some n ↔ _
      by_cases hdq : dc = q
      · rw [if_pos hdq, ih qs n]
        subst hdq
        simp [List.cons_append]
      · rw [if_neg hdq]
        simp only [List.cons_append, List.cons.injEq]
        constructor
        · intro he; exact absurd he (by simp)
        · rintro ⟨⟨he, -⟩, -, -⟩
          exact absurd he.symm hdq

theorem mem_readdirSync (fs : FileSys) (dir nm : String) :
    nm ∈ readdirSync fs dir ↔
      ∃ p, (p ∈ fs.files.map Prod.fst ++ fs.dirs) ∧
        p.data = dir.data ++ '/' :: nm.data ∧ nm.data ≠ [] ∧ '/' ∉ nm.data := by
  unfold readdirSync
  rw [List.mem_filterMap]
  constructor
  · rintro ⟨p, hp, hmap⟩
    rcases Option.map_eq_some'.mp hmap with ⟨l, hl, hmk⟩
    have hdata : nm.data = l := by rw [← hmk]
    rw [hdata]
    exact ⟨p, hp, (childNameL_eq_some dir.data p.data l).mp hl⟩
  · rintro ⟨p, hp, hdata, hne, hns⟩
    refine ⟨p, hp, ?_⟩
    rw [(childNameL_eq_some dir.data p.data nm.data).mpr ⟨hdata, hne, hns⟩]
    rfl

/-- C9: List on an absent storage root answers success with the empty list
(no error, no state change); on an existing root it answers exactly the names
lying directly inside the root: a name is listed iff some entry path is the
root joined with that separator-free nonempty name. -/
theorem claim9_list (fs : FileSys) :
    (existsSync fs (uploadDirOf "/app") = false →
      handleFiles "/app" fs = (.listOk [], fs)) ∧
    (existsSync fs (uploadDirOf "/app") = true →
      (handleFiles "/app" fs).1 = .listOk (readdirSync fs (uploadDirOf "/app")) ∧
      ∀ nm : String, nm ∈ readdirSync fs (uploadDirOf "/app") ↔
        ∃ p, (p ∈ fs.files.map Prod.fst ++ fs.dirs) ∧
          p.data = (uploadDirOf "/app").data ++ '/' :: nm.data ∧
          nm.data ≠ [] ∧ '/' ∉ nm.data) := by
  constructor
  · intro h
    unfold uploadDirOf at h
    simp [handleFiles, h]
  · intro h
    unfold uploadDirOf at h
    refine ⟨?_, fun nm => mem_readdirSync fs (uploadDirOf "/app") nm⟩
    simp [handleFiles, uploadDirOf, h]

/-- Witness for C9: the empty filesystem has no storage root and lists to an
empty success; a one-file root lists that file. -/
theorem claim9_list_witness :
    handleFiles "/app" fs0 = (.listOk [], fs0) ∧
    (handleFiles "/app" ⟨["/app/uploads"], [("/app/uploads/a.txt", "hi")]⟩).1 =
      .listOk (readdirSync ⟨["/app/uploads"], [("/app/uploads/a.txt", "hi")]⟩
        (uploadDirOf "/app")) :=
  ⟨(claim9_list fs0).1 (by decide),
   ((claim9_list ⟨["/app/uploads"], [("/app/uploads/a.txt", "hi")]⟩).2 (by decide)).1⟩

/-- C5: a gateway request whose service value is outside the enumeration
deepseek/gemini/copilot (including an absent service, which hits the same
`default` branch) answers HTTP 400 with error "Invalid service" and performs
zero outbound upstream calls. -/
theorem claim5_invalid_service (serviceQ : Option String) (apiKey prompt : String)
    (modelQ : Option String) (up : Upstream)
    (h1 : serviceQ ≠ some "deepseek") (h2 : serviceQ ≠ some "gemini")
    (h3 : serviceQ ≠ some "copilot") :
    handleGateway serviceQ apiKey prompt modelQ up = (.error 400 "Invalid service", []) := by
  cases serviceQ with
  | none => rfl
  | some s =>
    have hs1 : ¬s = "deepseek" := fun h => h1 (by rw [h])
    have hs2 : ¬s = "gemini" := fun h => h2 (by rw [h])
    have hs3 : ¬s = "copilot" := fun h => h3 (by rw [h])
    simp only [handleGateway, if_neg hs1, if_neg hs2, if_neg hs3]

/-- Witness for C5 at the concrete unsupported service name "azure". -/
theorem claim5_invalid_service_witness :
    handleGateway (some "azure") "k" "hi" none ⟨true, "OK", .null⟩ =
      (.error 400 "Invalid service", []) :=
  claim5_invalid_service (some "azure") "k" "hi" none ⟨true, "OK", .null⟩
    (by decide) (by decide) (by decide)

/-- C8: whenever the upstream reply has a non-ok status, each of the three
provider branches fails with HTTP 500 whose error message carries the
provider-prefixed upstream status text, the upstream is called exactly once
(a one-element outbound list — no retry), and no partial result is returned. -/
theorem claim8_upstream_error (apiKey prompt : String) (modelQ : Option String)
    (up : Upstream) (h : up.ok = false) :
    handleGateway (some "deepseek") apiKey prompt modelQ up =
      (.error 500 ("DeepSeek API error: " ++ up.statusText),
        [deepseekReq apiKey prompt modelQ]) ∧
    handleGateway (some "gemini") apiKey prompt modelQ up =
      (.error 500 ("Gemini API error: " ++ up.statusText),
        [geminiReq apiKey prompt modelQ]) ∧
    handleGateway (some "copilot") apiKey prompt modelQ up =
      (.error 500 ("OpenAI API error: " ++ up.statusText),
        [copilotReq apiKey prompt modelQ]) := by
  refine ⟨?_, ?_, ?_⟩
  · simp only [handleGateway, if_pos rfl, callDeepSeek, finishCall, h]
    simp
  · simp only [handleGateway, if_neg (by decide : ¬("gemini" = "deepseek")),
      if_pos rfl, callGemini, finishCall, h]
    simp
  · simp only [handleGateway, if_neg (by decide : ¬("copilot" = "deepseek")),
      if_neg (by decide : ¬("copilot" = "gemini")), if_pos rfl,
      callCopilot, finishCall, h]
    simp

/-- Witness for C8 with a concrete 502 upstream. -/
theorem claim8_upstream_error_witness :
    handleGateway (some "deepseek") "k" "hi" none ⟨false, "Bad Gateway", .null⟩ =
      (.error 500 ("DeepSeek API error: " ++ "Bad Gateway"), [deepseekReq "k" "hi" none]) :=
  (claim8_upstream_error "k" "hi" none ⟨false, "Bad Gateway", .null⟩ rfl).1

/-- C3 counterexample: on the empty-object upstream JSON reply — the expected field
path absent — the deepseek branch of the gateway does not fail with a
MalformedUpstreamResponse error: it surfaces HTTP 500 whose error message is
the JavaScript undefined-access TypeError text, i.e. the undefined-access
failure is what reaches the caller. -/
theorem claim3_counterexample :
    (handleGateway (some "deepseek") "k" "hi" none ⟨true, "OK", .obj []⟩).1 =
      .error 500 (undefinedReadMsg "0") ∧
    undefinedReadMsg "0" ≠ "MalformedUpstreamResponse" := by
  constructor
  · rfl
  · decide

/-- C3 (amended): for every upstream JSON object reply lacking the expected
field path's first segment (`choices` for DeepSeek/OpenAI, `candidates` for
Gemini), the gateway propagates the JavaScript undefined-access failure as an
HTTP 500 whose message is the TypeError text — not a MalformedUpstreamResponse
error and not a silent empty string; the upstream is still called once. -/
theorem claim3_undefined_access (fields : List (String × JsVal))
    (apiKey prompt : String) (modelQ : Option String) (st : String)
    (h1 : fields.lookup "choices" = none) (h2 : fields.lookup "candidates" = none) :
    handleGateway (some "deepseek") apiKey prompt modelQ ⟨true, st, .obj fields⟩ =
      (.error 500 (undefinedReadMsg "0"), [deepseekReq apiKey prompt modelQ]) ∧
    handleGateway (some "gemini") apiKey prompt modelQ ⟨true, st, .obj fields⟩ =
      (.error 500 (undefinedReadMsg "0"), [geminiReq apiKey prompt modelQ]) ∧
    handleGateway (some "copilot") apiKey prompt modelQ ⟨true, st, .obj fields⟩ =
      (.error 500 (undefinedReadMsg "0"), [copilotReq apiKey prompt modelQ]) := by
  have hz : Nat.repr 0 = "0" := rfl
  refine ⟨?_, ?_, ?_⟩
  · simp only [handleGateway, if_pos rfl, callDeepSeek, finishCall,
      extractChat, getProp, getIdx, h1]
    simp [hz]
  · simp only [handleGateway, if_neg (by decide : ¬("gemini" = "deepseek")),
      if_pos rfl, callGemini, finishCall, extractGemini, getProp, getIdx, h2]
    simp [hz]
  · simp only [handleGateway, if_neg (by decide : ¬("copilot" = "deepseek")),
      if_neg (by decide : ¬("copilot" = "gemini")), if_pos rfl,
      callCopilot, finishCall, extractChat, getProp, getIdx, h1]
    simp [hz]

/-- Witness for C3 (amended) on the concrete empty-object reply. -/
theorem claim3_undefined_access_witness :
    handleGateway (some "gemini") "k" "hi" none ⟨true, "OK", .obj []⟩ =
      (.error 500 (undefinedReadMsg "0"), [geminiReq "k" "hi" none]) :=
  (claim3_undefined_access [] "k" "hi" none "OK" rfl rfl).2.1

/-- C7 counterexample: two uploads of the same original name observed during
the same `Date.now()` millisecond generate the very same stored name (the
second upload overwrites the first file), refuting "the two generated names
always differ". -/
theorem claim7_counterexample :
    (handleUpload "/app" fs0 1700000000000 (some ("notes.txt", "first"))).1 =
      .uploadOk "1700000000000-notes.txt" "/app/uploads/1700000000000-notes.txt"
        "notes.txt" ∧
    (handleUpload "/app"
        (handleUpload "/app" fs0 1700000000000 (some ("notes.txt", "first"))).2
        1700000000000 (some ("notes.txt", "second"))).1 =
      .uploadOk "1700000000000-notes.txt" "/app/uploads/1700000000000-notes.txt"
        "notes.txt" := by
  constructor <;> decide

/-- C7 (amended): an upload stores under the generated name
`Date.now() + '-' + basename(originalname)`, and two uploads of the same
original name observed at distinct `Date.now()` values always generate
distinct stored names. -/
theorem claim7_distinct_names (t1 t2 : Nat) (orig c : String) (fs : FileSys)
    (h : t1 ≠ t2) :
    (handleUpload "/app" fs t1 (some (orig, c))).1 =
      .uploadOk (genUploadName t1 orig)
        (joinList [uploadDirOf "/app", genUploadName t1 orig]) orig ∧
    genUploadName t1 orig ≠ genUploadName t2 orig := by
  refine ⟨rfl, ?_⟩
  intro he
  have hdata := congrArg String.data he
  rw [genUploadName_data, genUploadName_data] at hdata
  have hc := append_sep_cancel '-' (natDigits t1) (natDigits t2) _ _
    (natDigits_no_dash t1) (natDigits_no_dash t2) hdata
  have h1 := digitsVal_natDigits t1
  rw [hc.1, digitsVal_natDigits t2] at h1
  exact h h1.symm

/-- Witness for C7 (amended) at the concrete timestamps 1 and 2. -/
theorem claim7_distinct_names_witness :
    genUploadName 1 "a.txt" ≠ genUploadName 2 "a.txt" :=
  (claim7_distinct_names 1 2 "a.txt" "x" fs0 (by decide)).2

end BrettApp
